import Mathlib

/-!
Verification of the USDA-NRCS Extract-CLU-Tool scripts
(src/SUPPORT/extract_CLU_by_AOI.py, src/SUPPORT/extract_CLU_by_Tract.py,
src/WCtool.py) against their natural-language specification.

The scripts are shallowly embedded: every network request made through
urlopen is answered by an explicit oracle (a Lean function supplied as an
argument), the module-level mutable globals (portalToken, params,
cluIdentifierList) are threaded as explicit state, and the one loop that
can run forever (the work-list loop of createListOfJSONextents) is given
an explicit fuel argument, with the out-of-fuel answer kept distinct from
every value the Python function can return.
-/

namespace ExtractCLU

/-! ## Python query-string and dict helpers

A URL-encoded query string is modelled as its list of (name, value)
pairs; urlencode and parse_qsl are then the identity on that data.
pyDictOfList models Python dict(listOfPairs): keys ordered by first
occurrence, the last value for a key wins.  pyDictSet models
d[k] = v / d.update(k=v), and pyDictGet models k in d / d[k]. -/

def pyDictOfList (l : List (String × String)) : List (String × String) :=
  l.foldl
    (fun acc kv =>
      if acc.any (fun p => p.1 = kv.1) then
        acc.map (fun p => if p.1 = kv.1 then (p.1, kv.2) else p)
      else acc ++ [kv])
    []

def pyDictSet {α : Type} (d : List (String × α)) (k : String) (v : α) :
    List (String × α) :=
  if d.any (fun p => p.1 = k) then
    d.map (fun p => if p.1 = k then (k, v) else p)
  else d ++ [(k, v)]

def pyDictGet {α : Type} : List (String × α) → String → Option α
  | [], _ => none
  | (k, v) :: rest, key => if k = key then some v else pyDictGet rest key

/-- Python str.find(pat) > -1 on lists of characters: does the needle
occur as a contiguous substring? -/
def charListStartsWith : List Char → List Char → Bool
  | _, [] => true
  | [], _ :: _ => false
  | c :: cs, d :: ds => c == d && charListStartsWith cs ds

def charListHasSub : List Char → List Char → Bool
  | [], needle => needle.isEmpty
  | c :: cs, needle => charListStartsWith (c :: cs) needle || charListHasSub cs needle

def hasSubStr (s pat : String) : Bool :=
  charListHasSub s.toList pat.toList

/-! ## submitFSquery (extract_CLU_by_AOI.py lines 111-202)

The parsed JSON response of one urlopen call is either a dict holding an
"error" key (with the error message) or an ordinary payload dict whose
only property the function inspects is its length.  The server is an
oracle mapping the index of the urlopen call made within one
submitFSquery invocation (0, 1, 2) and the query parameters sent to the
response received. -/

inductive FSResult where
  | errorResp (code : Nat) (message : String)
  | dataResp (payload : Nat) (size : Nat)
deriving DecidableEq

/-- Python: results has an "error" key whose message is "Invalid Token". -/
def isInvalidTokenResp : FSResult → Bool
  | FSResult.errorResp _ message => message = "Invalid Token"
  | FSResult.dataResp _ _ => false

/-- Python: "error" in results.keys() or len(results) == 0. -/
def isBadResult : FSResult → Bool
  | FSResult.errorResp _ _ => true
  | FSResult.dataResp _ size => size = 0

/-- What submitFSquery hands back to its caller: the parsed response
dict on success, False on a doubly failed request. -/
inductive SubmitResult where
  | success (results : FSResult)
  | failure
deriving DecidableEq

/-- The ambient state submitFSquery reads: the response oracle, the token
GetSigninToken would mint, the module-level global params string the
token-refresh branch actually re-parses (a slip: the comments say the
incoming INparams were meant), and the global portalToken. -/
structure FSEnv where
  server : Nat → List (String × String) → FSResult
  signinToken : String
  globalParams : List (String × String)
  portalToken : String

structure SubmitOutcome where
  result : SubmitResult
  portalTokenAfter : String
  requests : List (List (String × String))

/-- The query string the token-refresh branch builds: it parses the
module-global params (the Python line queryString = parse_qsl(params)
reads the global name params, not the INparams argument), converts the
pair list to a dict, overwrites the token, and re-encodes. -/
def refreshedParams (env : FSEnv) : List (String × String) :=
  pyDictSet (pyDictOfList env.globalParams) "token" env.signinToken

/-- Second half of submitFSquery (lines 168-186): on a bad result sleep
five seconds and resend the current INparams exactly once; return the
parsed results of whichever attempt succeeded, or False. -/
def finishQuery (env : FSEnv) (tokenNow : String)
    (requestsSoFar : List (List (String × String)))
    (INparams : List (String × String)) (results : FSResult) : SubmitOutcome :=
  if isBadResult results then
    let results2 := env.server requestsSoFar.length INparams
    if isBadResult results2 then
      { result := SubmitResult.failure, portalTokenAfter := tokenNow,
        requests := requestsSoFar ++ [INparams] }
    else
      { result := SubmitResult.success results2, portalTokenAfter := tokenNow,
        requests := requestsSoFar ++ [INparams] }
  else
    { result := SubmitResult.success results, portalTokenAfter := tokenNow,
      requests := requestsSoFar }

/-- submitFSquery of extract_CLU_by_AOI.py: send the query; if the
response is an Invalid Token error, refresh the token (updating the
global portalToken), rebuild the parameters from the global params
string, and resend; finally retry once more on any bad result. -/
def submitFSquery (env : FSEnv) (INparams : List (String × String)) :
    SubmitOutcome :=
  let results0 := env.server 0 INparams
  if isInvalidTokenResp results0 then
    let newParams := refreshedParams env
    let results1 := env.server 1 newParams
    finishQuery env env.signinToken [INparams, newParams] newParams results1
  else
    finishQuery env env.portalToken [INparams] INparams results0

/-- The parameters the retry of lines 168-186 will resend: the refreshed
parameters when the token-refresh branch ran, the original ones otherwise. -/
def effectiveParams (env : FSEnv) (INparams : List (String × String)) :
    List (String × String) :=
  if isInvalidTokenResp (env.server 0 INparams) then refreshedParams env
  else INparams

/-- Number of urlopen calls made before the final-retry check. -/
def preRetryCallCount (env : FSEnv) (INparams : List (String × String)) : Nat :=
  if isInvalidTokenResp (env.server 0 INparams) then 2 else 1

/-- The response in hand when the final-retry check of line 169 runs. -/
def preRetryResult (env : FSEnv) (INparams : List (String × String)) : FSResult :=
  if isInvalidTokenResp (env.server 0 INparams) then
    env.server 1 (refreshedParams env)
  else env.server 0 INparams

/-! ## createListOfJSONextents (extract_CLU_by_AOI.py lines 205-344)

A piece of the AOI produced by repeated SubdividePolygon calls is
identified by its subdivision path: child i of geometry g is i :: g and
the original AOI is [].  The count queries (submitFSquery with
returnCountOnly) are an oracle from the geometry and the attempt number
(0 for the first request, 1 for the in-loop retry of lines 317-319) to
the count, none standing for submitFSquery returning False. -/

abbrev Geom : Type := List Nat

def geomLen (g : Geom) : Nat := List.length g

/-- SubdividePolygon with NUMBER_OF_EQUAL_PARTS n: the n child pieces. -/
def subdividePolygon (g : Geom) (n : Nat) : List Geom :=
  (List.range n).map (fun i => (i :: g : List Nat))

/-- The count obtained for one split piece: first attempt, then the
single in-loop retry when the first attempt failed. -/
def countResult (oracle : Geom → Nat → Option Nat) (g : Geom) : Option Nat :=
  match oracle g 0 with
  | some c => some c
  | none => oracle g 1

/-- State of the work-list loop: the still-pending portion of
subDividedFCList, the jsonDict accumulated so far (keyed by the piece,
standing for the unique random feature-class name), and splitNum. -/
structure ExtState where
  queue : List Geom
  jsonDict : List (Geom × Nat)
  splitNum : Nat

/-- Lines 300-333, one split piece: on a (possibly retried) successful
count at or below the record limit the piece is recorded in jsonDict;
otherwise (count above the limit, or both count attempts failed) the
piece is recycled onto the end of subDividedFCList. -/
def processChild (oracle : Geom → Nat → Option Nat) (maxRecordCount : Nat)
    (st : ExtState) (g : Geom) : ExtState :=
  match countResult oracle g with
  | some c =>
      if c ≤ maxRecordCount then
        { st with jsonDict := st.jsonDict ++ [(g, c)] }
      else { st with queue := st.queue ++ [g] }
  | none => { st with queue := st.queue ++ [g] }

/-- The outcome classification used to reason about processChild. -/
def childOutcome (oracle : Geom → Nat → Option Nat) (maxRecordCount : Nat)
    (g : Geom) : Option (Geom × Nat) :=
  match countResult oracle g with
  | some c => if c ≤ maxRecordCount then some (g, c) else none
  | none => none

/-- The work-list loop (lines 258-333): take the next pending feature
class, subdivide it into numOfAreas parts on the first pass and 2 parts
afterwards, and process every resulting piece.  The Python for loop over
the growing subDividedFCList has no bound, so the embedding carries
fuel; none is the run that is still going when the fuel ends. -/
def extLoop (oracle : Geom → Nat → Option Nat) (maxRecordCount numOfAreas : Nat) :
    Nat → ExtState → Option (List (Geom × Nat))
  | 0, _ => none
  | fuel + 1, st =>
      match st.queue with
      | [] => some st.jsonDict
      | fc :: rest =>
          let n := if st.splitNum > 0 then 2 else numOfAreas
          let children := subdividePolygon fc n
          let st1 := children.foldl (processChild oracle maxRecordCount)
              { queue := rest, jsonDict := st.jsonDict, splitNum := st.splitNum + 1 }
          extLoop oracle maxRecordCount numOfAreas fuel st1

/-- createListOfJSONextents: count the whole AOI; keep it as the single
request when the count is within the record limit; otherwise run the
work-list loop starting from numOfAreas = int(count / 800).  The outer
Option is the fuel bound (none = the Python loop has not returned); the
inner Option is the Python return value (none = False, some d = the
dictionary, returned only when it is nonempty). -/
def createListOfJSONextents (oracle : Geom → Nat → Option Nat)
    (maxRecordCount fuel : Nat) : Option (Option (List (Geom × Nat))) :=
  match oracle ([] : List Nat) 0 with
  | none => some none
  | some c0 =>
      if c0 ≤ maxRecordCount then some (some [(([] : List Nat), c0)])
      else
        match extLoop oracle maxRecordCount (c0 / 800) fuel
            { queue := [([] : List Nat)], jsonDict := [], splitNum := 0 } with
        | none => none
        | some d => if d.length < 1 then some none else some (some d)

/-- Weight of one queued piece for the termination measure. -/
def geomWeight (D : Nat) (g : Geom) : Nat := 3 ^ (D - geomLen g)

def queueMeasure (D : Nat) (q : List Geom) : Nat :=
  (q.map (geomWeight D)).sum

/-- The claim C5 denies this: a run of createListOfJSONextents that is
still going for every amount of fuel. -/
def createListDiverges (oracle : Geom → Nat → Option Nat)
    (maxRecordCount : Nat) : Prop :=
  ∀ fuel, createListOfJSONextents oracle maxRecordCount fuel = none

/-! ## createOutputFC (extract_CLU_by_AOI.py lines 347-445,
extract_CLU_by_Tract.py lines 111-209): the field-dictionary loop -/

/-- One field description from the feature-service metadata. -/
structure FieldInfo where
  ftype : String
  fname : String
  falias : String
  length : Nat
deriving DecidableEq

/-- The value of the Python fldLength variable when an entry is written:
a service-declared length or the empty string. -/
inductive FldLength where
  | num (n : Nat)
  | emptyStr
deriving DecidableEq

/-- One value of the returned fieldDict: (fieldType, fieldLength, alias). -/
structure FieldEntry where
  entryType : String
  entryLength : FldLength
  entryAlias : String
deriving DecidableEq

/-- The fixed cross-reference table of lines 388-390. -/
def fldTypeDict : List (String × String) :=
  [("esriFieldTypeString", "TEXT"), ("esriFieldTypeDouble", "DOUBLE"),
   ("esriFieldTypeSingle", "FLOAT"), ("esriFieldTypeInteger", "LONG"),
   ("esriFieldTypeSmallInteger", "SHORT"), ("esriFieldTypeDate", "DATE"),
   ("esriFieldTypeGUID", "GUID"), ("esriFieldTypeGlobalID", "GUID")]

/-- The field-collection loop of lines 393-414.  The first argument is
the current value of the Python local fldLength, none while it is still
unbound: a DATE field keeps fldLength unchanged, so a DATE entry records
the previous length value, and a DATE field reached before any length
was ever assigned raises NameError (the whole function then returns
False, embedded as none); an unknown esri type raises KeyError likewise. -/
def buildFieldDictAux (fl : Option FldLength) (acc : List (String × FieldEntry)) :
    List FieldInfo → Option (List (String × FieldEntry))
  | [] => some acc
  | f :: rest =>
      if f.ftype = "esriFieldTypeOID" then buildFieldDictAux fl acc rest
      else
        match pyDictGet fldTypeDict f.ftype with
        | none => none
        | some t =>
            if hasSubStr f.fname "SHAPE_ST" then buildFieldDictAux fl acc rest
            else
              match (if t = "TEXT" then some (FldLength.num f.length)
                     else if t = "DATE" then fl
                     else some FldLength.emptyStr) with
              | none => none
              | some v =>
                  buildFieldDictAux (some v)
                    (pyDictSet acc f.fname ⟨t, v, f.falias⟩) rest

/-- The fieldDict createOutputFC builds from metadata["fields"]; the
fields added to the created feature class are exactly its keys (the
AddField loop of lines 426-436 iterates fieldDict). -/
def buildFieldDict (fsFields : List FieldInfo) :
    Option (List (String × FieldEntry)) :=
  buildFieldDictAux none [] fsFields

/-! ## getCLUgeometryByExtent (extract_CLU_by_AOI.py lines 448-517):
the clu_identifier deduplication -/

/-- One record of the features list of a geometry response; attrs stands
for the remaining attributes and the geometry. -/
structure CLUfeature where
  clu_identifier : String
  attrs : Nat
deriving DecidableEq

/-- The shared mutable state: the module-level cluIdentifierList and the
rows inserted into the output feature class so far. -/
structure AssembleState where
  cluIdentifierList : List String
  insertedRows : List CLUfeature

/-- Lines 473-509 for one returned feature: skip it when its
clu_identifier is already in cluIdentifierList, otherwise append the
identifier to the list and insert the row. -/
def insertFeature (st : AssembleState) (rec : CLUfeature) : AssembleState :=
  if rec.clu_identifier ∈ st.cluIdentifierList then st
  else
    { cluIdentifierList := st.cluIdentifierList ++ [rec.clu_identifier],
      insertedRows := st.insertedRows ++ [rec] }

/-- getCLUgeometryByExtent: when the geometry request failed the function
returns False and inserts nothing; otherwise it folds insertFeature over
the returned features. -/
def getCLUgeometryByExtent (response : Option (List CLUfeature))
    (st : AssembleState) : AssembleState :=
  match response with
  | none => st
  | some feats => feats.foldl insertFeature st

/-- One AOI run: cluIdentifierList starts empty (line 574) and is shared
across every extent request of the run. -/
def runAOIRequests (responses : List (Option (List CLUfeature))) : AssembleState :=
  responses.foldl (fun st r => getCLUgeometryByExtent r st)
    { cluIdentifierList := [], insertedRows := [] }

/-! ## Main request loop of extract_CLU_by_AOI.py (lines 574-608) -/

structure MainLoopResult where
  failedRequests : List (String × Nat)
  retriedKeys : List String
  exitedEarly : Bool
deriving DecidableEq

/-- The two passes over geometryEnvelopes: fetch pass key tells whether
getCLUgeometryByExtent succeeded for that envelope on that pass.  Every
first-pass failure is recorded in failedRequests; the retry pass runs
only under the len(failedRequests) > 1 guard, and exits instead when
every envelope failed. -/
def mainRequestLoop (fetch : Nat → String → Bool)
    (geometryEnvelopes : List (String × Nat)) : MainLoopResult :=
  let failed := geometryEnvelopes.filter (fun e => fetch 0 e.1 = false)
  if failed.length > 1 then
    if failed.length = geometryEnvelopes.length then
      { failedRequests := failed, retriedKeys := [], exitedEarly := true }
    else
      { failedRequests := failed, retriedKeys := failed.map (fun e => e.1),
        exitedEarly := false }
  else
    { failedRequests := failed, retriedKeys := [], exitedEarly := false }

/-! ## maxRecordCount default (extract_CLU_by_AOI.py lines 559-563,
extract_CLU_by_Tract.py lines 396-400) -/

/-- The record limit: 1000 when the metadata has no maxRecordCount key,
the metadata value otherwise. -/
def getMaxRecordCount (fsMetadata : List (String × Nat)) : Nat :=
  match pyDictGet fsMetadata "maxRecordCount" with
  | none => 1000
  | some v => v

/-! ## extract_CLU_by_Tract.py start (lines 294-493) -/

/-- The where clause of lines 405-410: Alaska (admin state "02") filters
the county value against COUNTY_ANSI_CODE, every other state against
ADMIN_COUNTY. -/
def buildTractWhereClause (adminState adminCounty tractNumber : String) : String :=
  if adminState = "02" then
    "ADMIN_STATE = " ++ adminState ++ " AND COUNTY_ANSI_CODE = " ++ adminCounty
      ++ " AND TRACT_NUMBER = " ++ tractNumber
  else
    "ADMIN_STATE = " ++ adminState ++ " AND ADMIN_COUNTY = " ++ adminCounty
      ++ " AND TRACT_NUMBER = " ++ tractNumber

/-- File-system paths as character lists, so that the Python slice
projected_CLU[0:-4] is List.take. -/
def chars (s : String) : List Char := s.toList

/-- os.sep, a fixed one-character separator. -/
def osSep : List Char := chars "/"

/-- The output feature-class path of createOutputFC in the Tract script:
outputWS + os.sep + "CLU_" + state + "_" + county + "_" + tract. -/
def tractCluFCpath (outputWS adminState adminCounty tractNumber : List Char) :
    List Char :=
  outputWS ++ osSep ++ chars "CLU_" ++ adminState ++ chars "_" ++ adminCounty
    ++ chars "_" ++ tractNumber

inductive StartResult where
  | exited
  | returnedFalse
  | returnedPath (p : List Char)
  | returnedNone
deriving DecidableEq

structure StartOutcome where
  result : StartResult
  mapAddCalls : Nat
deriving DecidableEq

/-- Control flow of start after the feature class is created, with the
tract query outcome abstracted as queryOK.  On query failure the script
exits (addCLUtoSoftware) or returns False; on success the feature class
is projected to cluFC + "_prj" and renamed to projected_CLU[0:-4], then
either added to a project map with no return value (addCLUtoSoftware) or
returned as a path with no map touched. -/
def startTract (queryOK addCLUtoSoftware : Bool)
    (outputWS adminState adminCounty tractNumber : List Char) : StartOutcome :=
  let cluFC := tractCluFCpath outputWS adminState adminCounty tractNumber
  if queryOK = false then
    if addCLUtoSoftware then { result := StartResult.exited, mapAddCalls := 0 }
    else { result := StartResult.returnedFalse, mapAddCalls := 0 }
  else
    let projectedCLU := cluFC ++ chars "_prj"
    let renamed := projectedCLU.take (projectedCLU.length - 4)
    if addCLUtoSoftware then
      { result := StartResult.returnedNone, mapAddCalls := 1 }
    else { result := StartResult.returnedPath renamed, mapAddCalls := 0 }

/-! ## Invariant of the CLU assembly state -/

/-- No clu_identifier appears twice among the inserted rows, and every
inserted identifier has been appended to cluIdentifierList. -/
def assembleInvariant (st : AssembleState) : Prop :=
  (st.insertedRows.map (fun r => r.clu_identifier)).Nodup ∧
  ∀ r ∈ st.insertedRows, r.clu_identifier ∈ st.cluIdentifierList

/-! ## Concrete instances used by witnesses and counterexamples -/

/-- An AOI whose initial count is already within the record limit. -/
def smallCountOracle : Geom → Nat → Option Nat := fun _ _ => some 42

/-- A response sequence that reports every piece above a limit of 1000. -/
def alwaysOverOracle : Geom → Nat → Option Nat := fun _ _ => some 1001

/-- A response sequence with the whole AOI above the limit and every
proper piece well below it. -/
def depthOneOracle : Geom → Nat → Option Nat :=
  fun g _ => if geomLen g = 0 then some 1600 else some 100

/-- A run of submitFSquery in which the first response is the Invalid
Token error: the module-global params string holds only the metadata
query while the function was given a geometry query. -/
def tokenBugEnv : FSEnv :=
  { server := fun i _ =>
      if i == 0 then FSResult.errorResp 498 "Invalid Token"
      else FSResult.dataResp 7 1,
    signinToken := "NEWTOKEN",
    globalParams := [("f", "json"), ("token", "OLDTOKEN")],
    portalToken := "OLDTOKEN" }

def tokenBugParams : List (String × String) :=
  [("f", "json"), ("geometry", "AOIPOLYGON"),
   ("geometryType", "esriGeometryPolygon"), ("returnCountOnly", "true"),
   ("token", "OLDTOKEN")]

/-- A run of submitFSquery whose first response is an empty dict (bad
but not a token error) and whose retry succeeds. -/
def retryEnv : FSEnv :=
  { server := fun i _ =>
      if i == 0 then FSResult.dataResp 0 0 else FSResult.dataResp 9 3,
    signinToken := "NEW",
    globalParams := [("f", "json")],
    portalToken := "OLD" }

def retryParams : List (String × String) := [("f", "json"), ("token", "OLD")]

/-- First-pass fetch failing for request_a only. -/
def fetchOneFail : Nat → String → Bool :=
  fun p k => !(p == 0 && k == "request_a")

/-- Fetch failing always. -/
def fetchAllFail : Nat → String → Bool := fun _ _ => false

/-- Sample feature-service field metadata exercising every branch of the
createOutputFC field loop. -/
def sampleFields : List FieldInfo :=
  [⟨"esriFieldTypeOID", "objectid", "OBJECTID", 0⟩,
   ⟨"esriFieldTypeString", "clu_identifier", "CLU_IDENTIFIER", 36⟩,
   ⟨"esriFieldTypeDouble", "clu_calculated_acreage", "ACRES", 0⟩,
   ⟨"esriFieldTypeDate", "creation_date", "CREATED", 0⟩,
   ⟨"esriFieldTypeString", "SHAPE_STArea__", "SHAPE_STArea__", 0⟩,
   ⟨"esriFieldTypeGlobalID", "global_id", "GlobalID", 0⟩]

/-- A field description justifies an entry of the returned fieldDict:
same name, not the OID field, not a SHAPE_ST field, the type obtained
from the cross-reference table, the alias of the field, and for TEXT
entries the service-declared length. -/
def fieldJustifies (f : FieldInfo) (p : String × FieldEntry) : Prop :=
  f.fname = p.1 ∧ f.ftype ≠ "esriFieldTypeOID" ∧
  hasSubStr f.fname "SHAPE_ST" = false ∧
  pyDictGet fldTypeDict f.ftype = some p.2.entryType ∧
  p.2.entryAlias = f.falias ∧
  (p.2.entryType = "TEXT" → p.2.entryLength = FldLength.num f.length)

/-- The fieldDict the createOutputFC loop builds from sampleFields. -/
def sampleFieldDict : List (String × FieldEntry) :=
  [("clu_identifier", ⟨"TEXT", FldLength.num 36, "CLU_IDENTIFIER"⟩),
   ("clu_calculated_acreage", ⟨"DOUBLE", FldLength.emptyStr, "ACRES"⟩),
   ("creation_date", ⟨"DATE", FldLength.emptyStr, "CREATED"⟩),
   ("global_id", ⟨"GUID", FldLength.emptyStr, "GlobalID"⟩)]

/-! # Theorems -/

/-! ## Helper lemmas -/

theorem take_length_append {α : Type} (l m : List α) :
    (l ++ m).take l.length = l := by
  induction l with
  | nil => simp
  | cons a l ih => simp [ih]

theorem take_prj_cancel (l : List Char) :
    (l ++ chars "_prj").take ((l ++ chars "_prj").length - 4) = l := by
  have h1 : (chars "_prj").length = 4 := rfl
  have h2 : (l ++ chars "_prj").length - 4 = l.length := by
    simp [List.length_append, h1]
  rw [h2, take_length_append]

theorem take_prj_cancel' (l : List Char) :
    (l ++ chars "_prj").take (l.length + (chars "_prj").length - 4) = l := by
  have h : l.length + (chars "_prj").length - 4 = l.length := by
    simp [show (chars "_prj").length = 4 from rfl]
  rw [h, take_length_append]

theorem insertFeature_invariant (st : AssembleState) (rec : CLUfeature)
    (h : assembleInvariant st) : assembleInvariant (insertFeature st rec) := by
  unfold insertFeature
  by_cases hmem : rec.clu_identifier ∈ st.cluIdentifierList
  · simpa [hmem] using h
  · obtain ⟨hnd, hsub⟩ := h
    simp only [if_neg hmem]
    constructor
    · rw [List.map_append]
      refine List.Nodup.append hnd (List.nodup_singleton _) ?_
      intro x hx hy
      simp only [List.map_cons, List.map_nil, List.mem_singleton] at hy
      subst hy
      obtain ⟨r, hr, hrx⟩ := List.mem_map.mp hx
      exact hmem (hrx ▸ hsub r hr)
    · intro r hr
      rcases List.mem_append.mp hr with hl | hrr
      · exact List.mem_append_left _ (hsub r hl)
      · rw [List.mem_singleton] at hrr
        subst hrr
        exact List.mem_append_right _ (List.mem_singleton.mpr rfl)

theorem foldl_insertFeature_invariant (feats : List CLUfeature) :
    ∀ st, assembleInvariant st →
      assembleInvariant (feats.foldl insertFeature st) := by
  induction feats with
  | nil => intro st h; exact h
  | cons f fs ih => intro st h; exact ih _ (insertFeature_invariant st f h)

theorem getCLUgeometryByExtent_invariant (response : Option (List CLUfeature))
    (st : AssembleState) (h : assembleInvariant st) :
    assembleInvariant (getCLUgeometryByExtent response st) := by
  cases response with
  | none => exact h
  | some feats => exact foldl_insertFeature_invariant feats st h

theorem foldl_requests_invariant (responses : List (Option (List CLUfeature))) :
    ∀ st, assembleInvariant st →
      assembleInvariant
        (responses.foldl (fun st r => getCLUgeometryByExtent r st) st) := by
  induction responses with
  | nil => intro st h; exact h
  | cons r rs ih => intro st h; exact ih _ (getCLUgeometryByExtent_invariant r st h)

/-! ## Claim C2 -/

/-- C2: the claim says the Invalid-Token branch replaces the token value
in the query string the function was given and resends the same request.
On the failing input below the code instead rebuilds the request from
the module-global params string (line 150 parses the global name params,
not INparams): the resent request drops the geometry parameters even
though it does mint a new token, store it in the global portalToken, and
resend before returning.  The last conjunct shows the resent parameters
are not the token-updated form of the parameters the function was given. -/
theorem submitFSquery_refresh_loses_query :
    (submitFSquery tokenBugEnv tokenBugParams).requests =
      [tokenBugParams, [("f", "json"), ("token", "NEWTOKEN")]] ∧
    (submitFSquery tokenBugEnv tokenBugParams).portalTokenAfter = "NEWTOKEN" ∧
    (submitFSquery tokenBugEnv tokenBugParams).result =
      SubmitResult.success (FSResult.dataResp 7 1) ∧
    pyDictSet (pyDictOfList tokenBugParams) "token" "NEWTOKEN" ≠
      [("f", "json"), ("token", "NEWTOKEN")] := by
  refine ⟨by decide, by decide, by decide, by decide⟩

/-! ## Claim C3 -/

/-- C3: whenever the response in hand after the optional token refresh is
still bad (an error key, or an empty dict), submitFSquery resends the
current parameters exactly once more and returns the parsed response of
that second attempt when it is good, and False when it is bad again. -/
theorem submitFSquery_second_attempt (env : FSEnv)
    (inp : List (String × String))
    (hbad : isBadResult (preRetryResult env inp) = true) :
    (submitFSquery env inp).requests.length = preRetryCallCount env inp + 1 ∧
    (submitFSquery env inp).requests.getLast? =
      some (effectiveParams env inp) ∧
    (submitFSquery env inp).result =
      (if isBadResult
            (env.server (preRetryCallCount env inp) (effectiveParams env inp)) then
         SubmitResult.failure
       else
         SubmitResult.success
           (env.server (preRetryCallCount env inp) (effectiveParams env inp))) := by
  by_cases h0 : isInvalidTokenResp (env.server 0 inp) = true
  · have hb : isBadResult (env.server 1 (refreshedParams env)) = true := by
      simpa [preRetryResult, h0] using hbad
    simp [submitFSquery, preRetryCallCount, effectiveParams, h0, finishQuery, hb]
    split_ifs with h2 <;> simp [h2]
  · have h0f : isInvalidTokenResp (env.server 0 inp) = false := by
      simpa using h0
    have hb : isBadResult (env.server 0 inp) = true := by
      simpa [preRetryResult, h0f] using hbad
    simp [submitFSquery, preRetryCallCount, effectiveParams, h0f, finishQuery, hb]
    split_ifs with h2 <;> simp [h2]

/-- C3 witness: a concrete run whose first response is an empty dict and
whose single retry succeeds. -/
theorem submitFSquery_second_attempt_witness :
    (submitFSquery retryEnv retryParams).requests.length =
      preRetryCallCount retryEnv retryParams + 1 ∧
    (submitFSquery retryEnv retryParams).requests.getLast? =
      some (effectiveParams retryEnv retryParams) ∧
    (submitFSquery retryEnv retryParams).result =
      (if isBadResult
            (retryEnv.server (preRetryCallCount retryEnv retryParams)
              (effectiveParams retryEnv retryParams)) then
         SubmitResult.failure
       else
         SubmitResult.success
           (retryEnv.server (preRetryCallCount retryEnv retryParams)
             (effectiveParams retryEnv retryParams))) :=
  submitFSquery_second_attempt retryEnv retryParams (by decide)

/-! ## Claim C4 -/

/-- C4: the claim says every extent whose request failed on the first
pass is re-submitted exactly once (unless every request failed, which
exits).  The retry pass actually runs only when more than one request
failed: on the first input below request_a fails its first attempt, is
recorded in failedRequests, and is never retried; on the second input a
one-envelope run fails completely yet neither exits nor retries. -/
theorem mainRequestLoop_single_failure_not_retried :
    mainRequestLoop fetchOneFail [("request_a", 5), ("request_b", 7)] =
      { failedRequests := [("request_a", 5)], retriedKeys := [],
        exitedEarly := false } ∧
    mainRequestLoop fetchAllFail [("request_a", 5)] =
      { failedRequests := [("request_a", 5)], retriedKeys := [],
        exitedEarly := false } := by
  refine ⟨by decide, by decide⟩

/-! ## Claim C7 -/

/-- C7 counterexample: a run whose tract query fails returns False, not
the path of the projected feature class, although addCLUtoSoftware was
False. -/
theorem startTract_query_failure_returns_false :
    (startTract false false (chars "E:/scratch.gdb") (chars "55")
        (chars "025") (chars "3364")).result = StartResult.returnedFalse ∧
    StartResult.returnedFalse ≠
      StartResult.returnedPath
        (tractCluFCpath (chars "E:/scratch.gdb") (chars "55") (chars "025")
          (chars "3364")) := by
  refine ⟨by decide, by decide⟩

/-- C7 amended: loading into the desktop project is optional.  With
addCLUtoSoftware False no map is touched and start returns the path of
the projected CLU feature class when the tract query succeeds (and False
when it fails); with addCLUtoSoftware True no path is ever returned and
the feature class is added to a project map exactly when the query
succeeds (the script exits without adding otherwise). -/
theorem startTract_load_optional (queryOK addCLU : Bool)
    (ws s c t : List Char) :
    (addCLU = false →
      (startTract queryOK addCLU ws s c t).mapAddCalls = 0 ∧
      (startTract queryOK addCLU ws s c t).result =
        (if queryOK then StartResult.returnedPath (tractCluFCpath ws s c t)
         else StartResult.returnedFalse)) ∧
    (addCLU = true →
      (startTract queryOK addCLU ws s c t).result =
        (if queryOK then StartResult.returnedNone else StartResult.exited) ∧
      (startTract queryOK addCLU ws s c t).mapAddCalls =
        (if queryOK then 1 else 0)) := by
  constructor
  · intro h
    subst h
    cases queryOK
    · simp [startTract]
    · simp [startTract, take_prj_cancel, take_prj_cancel']
  · intro h
    subst h
    cases queryOK <;> simp [startTract]

/-- C7 witness: a successful run with addCLUtoSoftware False returns the
concrete feature-class path and performs no map additions. -/
theorem startTract_load_optional_witness :
    (startTract true false (chars "E:/scratch.gdb") (chars "55")
        (chars "025") (chars "3364")).mapAddCalls = 0 ∧
    (startTract true false (chars "E:/scratch.gdb") (chars "55")
        (chars "025") (chars "3364")).result =
      StartResult.returnedPath
        (tractCluFCpath (chars "E:/scratch.gdb") (chars "55") (chars "025")
          (chars "3364")) := by
  have h := (startTract_load_optional true false (chars "E:/scratch.gdb")
      (chars "55") (chars "025") (chars "3364")).1 rfl
  exact ⟨h.1, by simpa using h.2⟩

/-! ## Claim C8 -/

/-- C8: over one AOI run the shared cluIdentifierList starts empty, every
inserted feature appends its clu_identifier to it, features whose
identifier is already present are skipped, and consequently no
clu_identifier is inserted into the output feature class twice. -/
theorem runAOIRequests_no_duplicate_rows
    (responses : List (Option (List CLUfeature))) :
    ((runAOIRequests responses).insertedRows.map
        (fun r => r.clu_identifier)).Nodup ∧
    ∀ r ∈ (runAOIRequests responses).insertedRows,
      r.clu_identifier ∈ (runAOIRequests responses).cluIdentifierList := by
  have h := foldl_requests_invariant responses
    { cluIdentifierList := [], insertedRows := [] }
    (by constructor <;> simp)
  exact h

/-! ## Claim C9 -/

/-- C9: the record limit is the metadata maxRecordCount value when the
key is present and defaults to 1000 otherwise. -/
theorem getMaxRecordCount_spec (md : List (String × Nat)) :
    (pyDictGet md "maxRecordCount" = none → getMaxRecordCount md = 1000) ∧
    (∀ v, pyDictGet md "maxRecordCount" = some v →
      getMaxRecordCount md = v) := by
  constructor
  · intro h
    simp [getMaxRecordCount, h]
  · intro v h
    simp [getMaxRecordCount, h]

/-- C9 witness: metadata without the key yields 1000, metadata carrying
maxRecordCount 2000 yields 2000. -/
theorem getMaxRecordCount_spec_witness :
    getMaxRecordCount [("currentVersion", 10)] = 1000 ∧
    getMaxRecordCount [("maxRecordCount", 2000)] = 2000 :=
  ⟨(getMaxRecordCount_spec [("currentVersion", 10)]).1 (by decide),
   (getMaxRecordCount_spec [("maxRecordCount", 2000)]).2 2000 (by decide)⟩

/-! ## Claim C10 -/

/-- C10: the tract where clause filters the county value against
COUNTY_ANSI_CODE exactly for admin state "02" (Alaska) and against
ADMIN_COUNTY, together with ADMIN_STATE and TRACT_NUMBER, for every
other admin state. -/
theorem buildTractWhereClause_spec (s c t : String) :
    (s = "02" → buildTractWhereClause s c t =
      "ADMIN_STATE = " ++ s ++ " AND COUNTY_ANSI_CODE = " ++ c ++
        " AND TRACT_NUMBER = " ++ t) ∧
    (s ≠ "02" → buildTractWhereClause s c t =
      "ADMIN_STATE = " ++ s ++ " AND ADMIN_COUNTY = " ++ c ++
        " AND TRACT_NUMBER = " ++ t) := by
  constructor <;> intro h <;> simp [buildTractWhereClause, h]

/-- C10 witness: the Alaska clause for state "02" and the ordinary clause
for state "55". -/
theorem buildTractWhereClause_spec_witness :
    buildTractWhereClause "02" "016" "100" =
      "ADMIN_STATE = 02 AND COUNTY_ANSI_CODE = 016 AND TRACT_NUMBER = 100" ∧
    buildTractWhereClause "55" "025" "3364" =
      "ADMIN_STATE = 55 AND ADMIN_COUNTY = 025 AND TRACT_NUMBER = 3364" := by
  constructor
  · rw [(buildTractWhereClause_spec "02" "016" "100").1 rfl]
    decide
  · rw [(buildTractWhereClause_spec "55" "025" "3364").2 (by decide)]
    decide

/-! ## Work-list loop lemmas -/

theorem childOutcome_bounded (oracle : Geom → Nat → Option Nat)
    (maxRC : Nat) (g : Geom) (p : Geom × Nat)
    (h : childOutcome oracle maxRC g = some p) : p.2 ≤ maxRC := by
  unfold childOutcome at h
  split at h
  · split at h
    · rename_i hle
      injection h with h2
      rw [← h2]
      exact hle
    · cases h
  · cases h

theorem foldl_processChild_spec (oracle : Geom → Nat → Option Nat)
    (maxRC : Nat) (l : List Geom) : ∀ st : ExtState,
    (l.foldl (processChild oracle maxRC) st).jsonDict
        = st.jsonDict ++ l.filterMap (childOutcome oracle maxRC) ∧
    (l.foldl (processChild oracle maxRC) st).queue
        = st.queue ++ l.filter (fun g => (childOutcome oracle maxRC g).isNone) ∧
    (l.foldl (processChild oracle maxRC) st).splitNum = st.splitNum := by
  induction l with
  | nil => intro st; simp
  | cons g gs ih =>
      intro st
      obtain ⟨ih1, ih2, ih3⟩ := ih (processChild oracle maxRC st g)
      rw [List.foldl_cons] at *
      refine ⟨?_, ?_, ?_⟩
      · rw [ih1]
        cases hc : countResult oracle g with
        | some c =>
            by_cases hle : c ≤ maxRC
            · simp [processChild, childOutcome, hc, hle]
            · simp [processChild, childOutcome, hc, hle]
        | none => simp [processChild, childOutcome, hc]
      · rw [ih2]
        cases hc : countResult oracle g with
        | some c =>
            by_cases hle : c ≤ maxRC
            · simp [processChild, childOutcome, hc, hle]
            · simp [processChild, childOutcome, hc, hle]
        | none => simp [processChild, childOutcome, hc]
      · rw [ih3]
        cases hc : countResult oracle g with
        | some c =>
            by_cases hle : c ≤ maxRC
            · simp [processChild, hc, hle]
            · simp [processChild, hc, hle]
        | none => simp [processChild, hc]

theorem extLoop_dict_bounded (oracle : Geom → Nat → Option Nat)
    (maxRC n0 : Nat) : ∀ fuel (st : ExtState) (d : List (Geom × Nat)),
    (∀ p ∈ st.jsonDict, p.2 ≤ maxRC) →
    extLoop oracle maxRC n0 fuel st = some d →
    ∀ p ∈ d, p.2 ≤ maxRC := by
  intro fuel
  induction fuel with
  | zero => intro st d _ h; simp [extLoop] at h
  | succ f ih =>
      intro st d hinv h
      cases hq : st.queue with
      | nil =>
          rw [extLoop, hq] at h
          simp only [Option.some.injEq] at h
          subst h
          exact hinv
      | cons fc rest =>
          rw [extLoop, hq] at h
          simp only at h
          refine ih _ d ?_ h
          obtain ⟨hd, _, _⟩ := foldl_processChild_spec oracle maxRC
            (subdividePolygon fc (if st.splitNum > 0 then 2 else n0))
            { queue := rest, jsonDict := st.jsonDict, splitNum := st.splitNum + 1 }
          rw [hd]
          intro p hp
          rcases List.mem_append.mp hp with hl | hr
          · exact hinv p hl
          · obtain ⟨g, _, hg⟩ := List.mem_filterMap.mp hr
            exact childOutcome_bounded oracle maxRC g p hg

/-! ## Claim C1 -/

/-- C1: whenever createListOfJSONextents returns (res is its Python
return value), every entry of a returned dictionary pairs a geometry
with a count at most maxRecordCount and the dictionary is nonempty
(an empty dictionary is returned as False); an AOI whose initial count
is within the limit yields exactly the one entry holding the original
AOI geometry and its count; a failed initial count query yields False. -/
theorem createListOfJSONextents_spec (oracle : Geom → Nat → Option Nat)
    (maxRC fuel : Nat) (res : Option (List (Geom × Nat)))
    (h : createListOfJSONextents oracle maxRC fuel = some res) :
    (∀ d, res = some d → (∀ p ∈ d, p.2 ≤ maxRC) ∧ d ≠ []) ∧
    (∀ c0, oracle ([] : List Nat) 0 = some c0 → c0 ≤ maxRC →
      res = some [(([] : List Nat), c0)]) ∧
    (oracle ([] : List Nat) 0 = none → res = none) := by
  unfold createListOfJSONextents at h
  split at h
  case h_1 h0 =>
      simp only [Option.some.injEq] at h
      subst h
      refine ⟨by simp, ?_, fun _ => rfl⟩
      intro c0 hc0
      rw [h0] at hc0
      cases hc0
  case h_2 c0 h0 =>
      by_cases hle : c0 ≤ maxRC
      · rw [if_pos hle] at h
        simp only [Option.some.injEq] at h
        subst h
        refine ⟨?_, ?_, ?_⟩
        · intro d hd
          simp only [Option.some.injEq] at hd
          subst hd
          constructor
          · intro p hp
            simp only [List.mem_singleton] at hp
            subst hp
            exact hle
          · simp
        · intro c0' h0' _
          rw [h0] at h0'
          simp only [Option.some.injEq] at h0'
          subst h0'
          rfl
        · intro hn
          rw [h0] at hn
          cases hn
      · rw [if_neg hle] at h
        split at h
        next hloop => cases h
        next d0 hloop =>
            by_cases hlen : d0.length < 1
            · rw [if_pos hlen] at h
              simp only [Option.some.injEq] at h
              subst h
              refine ⟨by simp, ?_, ?_⟩
              · intro c0' h0' hle'
                rw [h0] at h0'
                simp only [Option.some.injEq] at h0'
                subst h0'
                exact absurd hle' hle
              · intro _
                rfl
            · rw [if_neg hlen] at h
              simp only [Option.some.injEq] at h
              subst h
              refine ⟨?_, ?_, ?_⟩
              · intro d hd
                simp only [Option.some.injEq] at hd
                subst hd
                constructor
                · exact extLoop_dict_bounded oracle maxRC (c0 / 800) fuel _ _
                    (by simp) hloop
                · intro he
                  subst he
                  simp at hlen
              · intro c0' h0' hle'
                rw [h0] at h0'
                simp only [Option.some.injEq] at h0'
                subst h0'
                exact absurd hle' hle
              · intro hn
                rw [h0] at hn
                cases hn

/-- C1 witness: an AOI counted at 42 CLUs under a limit of 1000 yields
the single original-geometry entry. -/
theorem createListOfJSONextents_spec_witness :
    (∀ d, (some [(([] : List Nat), 42)] : Option (List (Geom × Nat))) = some d →
      (∀ p ∈ d, p.2 ≤ 1000) ∧ d ≠ []) ∧
    (∀ c0, smallCountOracle ([] : List Nat) 0 = some c0 → c0 ≤ 1000 →
      (some [(([] : List Nat), 42)] : Option (List (Geom × Nat))) =
        some [(([] : List Nat), c0)]) ∧
    (smallCountOracle ([] : List Nat) 0 = none →
      (some [(([] : List Nat), 42)] : Option (List (Geom × Nat))) = none) :=
  createListOfJSONextents_spec smallCountOracle 1000 5
    (some [(([] : List Nat), 42)]) (by decide)

/-! ## Python dict lemmas -/

theorem pyDictGet_some_mem {α : Type} (d : List (String × α)) (k : String)
    (v : α) (h : pyDictGet d k = some v) : (k, v) ∈ d := by
  induction d with
  | nil => cases h
  | cons q rest ih =>
      obtain ⟨ka, va⟩ := q
      by_cases hka : ka = k
      · subst hka
        rw [pyDictGet, if_pos rfl] at h
        injection h with hv
        subst hv
        exact List.mem_cons_self _ _
      · rw [pyDictGet, if_neg hka] at h
        exact List.mem_cons_of_mem _ (ih h)

theorem mem_pyDictSet {α : Type} (d : List (String × α)) (k : String) (v : α)
    (p : String × α) (h : p ∈ pyDictSet d k v) : p = (k, v) ∨ p ∈ d := by
  unfold pyDictSet at h
  split at h
  · obtain ⟨q, hq, he⟩ := List.mem_map.mp h
    by_cases hk : q.1 = k
    · rw [if_pos hk] at he
      exact Or.inl he.symm
    · rw [if_neg hk] at he
      exact Or.inr (he ▸ hq)
  · rcases List.mem_append.mp h with hl | hr
    · exact Or.inr hl
    · rw [List.mem_singleton] at hr
      exact Or.inl hr

theorem pyDictGet_map_ne {α : Type} (d : List (String × α)) (k : String)
    (v : α) (k1 : String) (hne : k1 ≠ k) :
    pyDictGet (d.map (fun p => if p.1 = k then (k, v) else p)) k1 =
      pyDictGet d k1 := by
  induction d with
  | nil => rfl
  | cons q rest ih =>
      obtain ⟨ka, va⟩ := q
      simp only [List.map_cons]
      by_cases hka : ka = k
      · subst hka
        have hk1 : ¬ (ka = k1) := fun hh => hne hh.symm
        rw [if_pos (show ((ka, va) : String × α).1 = ka from rfl)]
        simp only [pyDictGet]
        rw [if_neg hk1, if_neg hk1]
        exact ih
      · rw [if_neg hka]
        simp only [pyDictGet]
        by_cases hk1 : ka = k1
        · rw [if_pos hk1, if_pos hk1]
        · rw [if_neg hk1, if_neg hk1]
          exact ih

theorem pyDictGet_append_single_ne {α : Type} (d : List (String × α))
    (k : String) (v : α) (k1 : String) (hne : k1 ≠ k) :
    pyDictGet (d ++ [(k, v)]) k1 = pyDictGet d k1 := by
  induction d with
  | nil =>
      have hk : ¬ (k = k1) := fun hh => hne hh.symm
      simp only [List.nil_append, pyDictGet]
      rw [if_neg hk]
  | cons q rest ih =>
      obtain ⟨ka, va⟩ := q
      simp only [List.cons_append, pyDictGet]
      by_cases hk1 : ka = k1
      · rw [if_pos hk1, if_pos hk1]
      · rw [if_neg hk1, if_neg hk1]
        exact ih

theorem pyDictGet_set_ne {α : Type} (d : List (String × α)) (k : String)
    (v : α) (k1 : String) (hne : k1 ≠ k) :
    pyDictGet (pyDictSet d k v) k1 = pyDictGet d k1 := by
  unfold pyDictSet
  split
  · exact pyDictGet_map_ne d k v k1 hne
  · exact pyDictGet_append_single_ne d k v k1 hne

theorem pyDictGet_map_set {α : Type} (d : List (String × α)) (k : String)
    (v : α) (hany : d.any (fun p => p.1 = k) = true) :
    pyDictGet (d.map (fun p => if p.1 = k then (k, v) else p)) k = some v := by
  induction d with
  | nil => simp at hany
  | cons q rest ih =>
      obtain ⟨ka, va⟩ := q
      simp only [List.map_cons]
      by_cases hka : ka = k
      · subst hka
        rw [if_pos (show ((ka, va) : String × α).1 = ka from rfl)]
        simp [pyDictGet]
      · rw [if_neg hka]
        simp only [pyDictGet]
        rw [if_neg hka]
        have h1 : rest.any (fun p => p.1 = k) = true := by
          rw [List.any_cons, Bool.or_eq_true] at hany
          rcases hany with hh | hh
          · exact absurd (of_decide_eq_true hh) hka
          · exact hh
        exact ih h1

theorem pyDictGet_none_of_any_false {α : Type} (d : List (String × α))
    (k : String) (hany : d.any (fun p => p.1 = k) = false) :
    pyDictGet d k = none := by
  induction d with
  | nil => rfl
  | cons q rest ih =>
      obtain ⟨ka, va⟩ := q
      have h1 : ¬ (ka = k) ∧ rest.any (fun p => p.1 = k) = false := by
        simpa using hany
      simp [pyDictGet, h1.1, ih h1.2]

theorem pyDictGet_append_of_none {α : Type} (d e : List (String × α))
    (k : String) (h : pyDictGet d k = none) :
    pyDictGet (d ++ e) k = pyDictGet e k := by
  induction d with
  | nil => rfl
  | cons q rest ih =>
      obtain ⟨ka, va⟩ := q
      by_cases hka : ka = k
      · simp [pyDictGet, hka] at h
      · simp only [pyDictGet, if_neg hka] at h
        simp [pyDictGet, hka, ih h]

theorem pyDictGet_set_self {α : Type} (d : List (String × α)) (k : String)
    (v : α) : pyDictGet (pyDictSet d k v) k = some v := by
  unfold pyDictSet
  split
  next hany => exact pyDictGet_map_set d k v hany
  next hany =>
      have hf : d.any (fun p => p.1 = k) = false := by
        rw [Bool.not_eq_true] at hany
        exact hany
      rw [pyDictGet_append_of_none d _ k (pyDictGet_none_of_any_false d k hf)]
      simp [pyDictGet]

theorem nodup_map_inj {α β : Type} (fn : α → β) :
    ∀ (l : List α), (l.map fn).Nodup →
      ∀ a ∈ l, ∀ b ∈ l, fn a = fn b → a = b := by
  intro l
  induction l with
  | nil => intro _ a ha; cases ha
  | cons x xs ih =>
      intro hnd a ha b hb he
      have h1 : fn x ∉ xs.map fn := (List.nodup_cons.mp hnd).1
      have h2 := (List.nodup_cons.mp hnd).2
      rcases List.mem_cons.mp ha with rfl | ha1
      · rcases List.mem_cons.mp hb with rfl | hb1
        · rfl
        · apply absurd _ h1
          rw [he]
          exact List.mem_map_of_mem fn hb1
      · rcases List.mem_cons.mp hb with rfl | hb1
        · apply absurd _ h1
          rw [← he]
          exact List.mem_map_of_mem fn ha1
        · exact ih h2 a ha1 b hb1 he

/-! ## createOutputFC field-loop lemmas -/

theorem buildFieldDictAux_mem : ∀ (rest : List FieldInfo)
    (fl : Option FldLength) (acc d : List (String × FieldEntry)),
    buildFieldDictAux fl acc rest = some d →
    ∀ p ∈ d, p ∈ acc ∨ ∃ f ∈ rest, fieldJustifies f p := by
  intro rest
  induction rest with
  | nil =>
      intro fl acc d h p hp
      rw [buildFieldDictAux] at h
      injection h with he
      subst he
      exact Or.inl hp
  | cons f rest ih =>
      intro fl acc d h p hp
      rw [buildFieldDictAux] at h
      by_cases hoid : f.ftype = "esriFieldTypeOID"
      · rw [if_pos hoid] at h
        rcases ih fl acc d h p hp with hl | ⟨f1, hf1, hj⟩
        · exact Or.inl hl
        · exact Or.inr ⟨f1, List.mem_cons_of_mem _ hf1, hj⟩
      · rw [if_neg hoid] at h
        split at h
        next hty => cases h
        next t hty =>
            by_cases hsh : hasSubStr f.fname "SHAPE_ST" = true
            · rw [if_pos hsh] at h
              rcases ih fl acc d h p hp with hl | ⟨f1, hf1, hj⟩
              · exact Or.inl hl
              · exact Or.inr ⟨f1, List.mem_cons_of_mem _ hf1, hj⟩
            · have hfalse : hasSubStr f.fname "SHAPE_ST" = false := by
                simpa using hsh
              rw [if_neg hsh] at h
              split at h
              next hfl => cases h
              next v hfl =>
                  rcases ih _ _ d h p hp with hl | ⟨f1, hf1, hj⟩
                  · rcases mem_pyDictSet _ _ _ _ hl with he | hacc
                    · subst he
                      refine Or.inr ⟨f, List.mem_cons_self _ _,
                        rfl, hoid, hfalse, hty, rfl, ?_⟩
                      intro ht
                      rw [if_pos ht] at hfl
                      injection hfl with hv
                      exact hv.symm
                    · exact Or.inl hacc
                  · exact Or.inr ⟨f1, List.mem_cons_of_mem _ hf1, hj⟩

theorem buildFieldDictAux_preserve : ∀ (rest : List FieldInfo)
    (fl : Option FldLength) (acc d : List (String × FieldEntry))
    (k : String) (e : FieldEntry),
    buildFieldDictAux fl acc rest = some d →
    pyDictGet acc k = some e →
    (∀ f ∈ rest, f.fname ≠ k) →
    pyDictGet d k = some e := by
  intro rest
  induction rest with
  | nil =>
      intro fl acc d k e h hacc _
      rw [buildFieldDictAux] at h
      injection h with he
      subst he
      exact hacc
  | cons f rest ih =>
      intro fl acc d k e h hacc hall
      rw [buildFieldDictAux] at h
      have hallr : ∀ f1 ∈ rest, f1.fname ≠ k :=
        fun f1 hf1 => hall f1 (List.mem_cons_of_mem _ hf1)
      by_cases hoid : f.ftype = "esriFieldTypeOID"
      · rw [if_pos hoid] at h
        exact ih fl acc d k e h hacc hallr
      · rw [if_neg hoid] at h
        split at h
        next hty => cases h
        next t hty =>
            by_cases hsh : hasSubStr f.fname "SHAPE_ST" = true
            · rw [if_pos hsh] at h
              exact ih fl acc d k e h hacc hallr
            · rw [if_neg hsh] at h
              split at h
              next hfl => cases h
              next v hfl =>
                  refine ih _ _ d k e h ?_ hallr
                  rw [pyDictGet_set_ne acc f.fname _ k
                    (fun hh => hall f (List.mem_cons_self _ _) hh.symm)]
                  exact hacc

theorem buildFieldDictAux_inserts : ∀ (rest : List FieldInfo)
    (fl : Option FldLength) (acc d : List (String × FieldEntry)),
    buildFieldDictAux fl acc rest = some d →
    (rest.map (fun f => f.fname)).Nodup →
    ∀ f ∈ rest, f.ftype ≠ "esriFieldTypeOID" →
      hasSubStr f.fname "SHAPE_ST" = false →
      ∀ t, pyDictGet fldTypeDict f.ftype = some t →
        ∃ e : FieldEntry, pyDictGet d f.fname = some e ∧ e.entryType = t ∧
          e.entryAlias = f.falias ∧
          (t = "TEXT" → e.entryLength = FldLength.num f.length) := by
  intro rest
  induction rest with
  | nil => intro fl acc d _ _ f hf; cases hf
  | cons g rest ih =>
      intro fl acc d h hnd f hf hfoid hfsh t ht
      have hnd1 : (rest.map (fun f => f.fname)).Nodup :=
        (List.nodup_cons.mp hnd).2
      have hgnot : g.fname ∉ rest.map (fun f => f.fname) :=
        (List.nodup_cons.mp hnd).1
      rw [buildFieldDictAux] at h
      rcases List.mem_cons.mp hf with rfl | hfr
      · rw [if_neg hfoid] at h
        split at h
        next hty =>
            rw [ht] at hty
            cases hty
        next t1 hty =>
            rw [ht] at hty
            injection hty with htt
            subst htt
            have hne : ¬ (hasSubStr f.fname "SHAPE_ST" = true) := by
              simp [hfsh]
            rw [if_neg hne] at h
            split at h
            next hfl => cases h
            next v hfl =>
                refine ⟨⟨t, v, f.falias⟩, ?_, rfl, rfl, ?_⟩
                · refine buildFieldDictAux_preserve rest _ _ d f.fname _ h
                    (pyDictGet_set_self acc f.fname _) ?_
                  intro f1 hf1 heq
                  exact hgnot (heq ▸ List.mem_map_of_mem _ hf1)
                · intro htt
                  rw [if_pos htt] at hfl
                  injection hfl with hv
                  exact hv.symm
      · by_cases hgoid : g.ftype = "esriFieldTypeOID"
        · rw [if_pos hgoid] at h
          exact ih _ _ _ h hnd1 f hfr hfoid hfsh t ht
        · rw [if_neg hgoid] at h
          split at h
          next => cases h
          next tg htg =>
              by_cases hgsh : hasSubStr g.fname "SHAPE_ST" = true
              · rw [if_pos hgsh] at h
                exact ih _ _ _ h hnd1 f hfr hfoid hfsh t ht
              · rw [if_neg hgsh] at h
                split at h
                next => cases h
                next v hfl =>
                    exact ih _ _ _ h hnd1 f hfr hfoid hfsh t ht

/-! ## Claim C6 -/

/-- C6: under distinct field names, every entry of the returned fieldDict
comes from a metadata field that is not the OID field and has no
SHAPE_ST in its name, with field type looked up in the fixed table, the
service alias, and the service-declared length for TEXT entries; the OID
field and every SHAPE_ST field are excluded from the dictionary (whose
keys are exactly the fields added to the created feature class); every
other field with a type in the table does get an entry of the mapped
type; and the table maps the eight esri types as the claim states. -/
theorem createOutputFC_field_mapping (fsFields : List FieldInfo)
    (d : List (String × FieldEntry))
    (hnames : (fsFields.map (fun f => f.fname)).Nodup)
    (h : buildFieldDict fsFields = some d) :
    (∀ p ∈ d, ∃ f ∈ fsFields, fieldJustifies f p) ∧
    (∀ f ∈ fsFields,
      (f.ftype = "esriFieldTypeOID" ∨ hasSubStr f.fname "SHAPE_ST" = true) →
      pyDictGet d f.fname = none) ∧
    (∀ f ∈ fsFields, f.ftype ≠ "esriFieldTypeOID" →
      hasSubStr f.fname "SHAPE_ST" = false →
      ∀ t, pyDictGet fldTypeDict f.ftype = some t →
        ∃ e : FieldEntry, pyDictGet d f.fname = some e ∧ e.entryType = t ∧
          e.entryAlias = f.falias ∧
          (t = "TEXT" → e.entryLength = FldLength.num f.length)) ∧
    pyDictGet fldTypeDict "esriFieldTypeString" = some "TEXT" ∧
    pyDictGet fldTypeDict "esriFieldTypeDouble" = some "DOUBLE" ∧
    pyDictGet fldTypeDict "esriFieldTypeSingle" = some "FLOAT" ∧
    pyDictGet fldTypeDict "esriFieldTypeInteger" = some "LONG" ∧
    pyDictGet fldTypeDict "esriFieldTypeSmallInteger" = some "SHORT" ∧
    pyDictGet fldTypeDict "esriFieldTypeDate" = some "DATE" ∧
    pyDictGet fldTypeDict "esriFieldTypeGUID" = some "GUID" ∧
    pyDictGet fldTypeDict "esriFieldTypeGlobalID" = some "GUID" := by
  have hmem : ∀ p ∈ d, ∃ f ∈ fsFields, fieldJustifies f p := by
    intro p hp
    rcases buildFieldDictAux_mem fsFields none [] d h p hp with hl | hr
    · cases hl
    · exact hr
  refine ⟨hmem, ?_, ?_, by decide, by decide, by decide, by decide,
    by decide, by decide, by decide, by decide⟩
  · intro f hf hbad
    cases hget : pyDictGet d f.fname with
    | none => rfl
    | some v =>
        exfalso
        have hmem2 := pyDictGet_some_mem d f.fname v hget
        obtain ⟨f1, hf1, hn, hoid1, hsh1, _⟩ := hmem (f.fname, v) hmem2
        have hff : f1 = f :=
          nodup_map_inj (fun f => f.fname) fsFields hnames f1 hf1 f hf hn
        subst hff
        rcases hbad with h1 | h1
        · exact hoid1 h1
        · rw [hsh1] at h1
          cases h1
  · intro f hf hoid hsh t ht
    exact buildFieldDictAux_inserts fsFields none [] d h hnames f hf hoid hsh t ht

/-- C6 witness: the sample metadata yields the expected fieldDict; the
OID and SHAPE_ST fields are absent, the others mapped per the table. -/
theorem createOutputFC_field_mapping_witness :
    (∀ p ∈ sampleFieldDict, ∃ f ∈ sampleFields, fieldJustifies f p) ∧
    (∀ f ∈ sampleFields,
      (f.ftype = "esriFieldTypeOID" ∨ hasSubStr f.fname "SHAPE_ST" = true) →
      pyDictGet sampleFieldDict f.fname = none) ∧
    (∀ f ∈ sampleFields, f.ftype ≠ "esriFieldTypeOID" →
      hasSubStr f.fname "SHAPE_ST" = false →
      ∀ t, pyDictGet fldTypeDict f.ftype = some t →
        ∃ e : FieldEntry, pyDictGet sampleFieldDict f.fname = some e ∧
          e.entryType = t ∧ e.entryAlias = f.falias ∧
          (t = "TEXT" → e.entryLength = FldLength.num f.length)) ∧
    pyDictGet fldTypeDict "esriFieldTypeString" = some "TEXT" ∧
    pyDictGet fldTypeDict "esriFieldTypeDouble" = some "DOUBLE" ∧
    pyDictGet fldTypeDict "esriFieldTypeSingle" = some "FLOAT" ∧
    pyDictGet fldTypeDict "esriFieldTypeInteger" = some "LONG" ∧
    pyDictGet fldTypeDict "esriFieldTypeSmallInteger" = some "SHORT" ∧
    pyDictGet fldTypeDict "esriFieldTypeDate" = some "DATE" ∧
    pyDictGet fldTypeDict "esriFieldTypeGUID" = some "GUID" ∧
    pyDictGet fldTypeDict "esriFieldTypeGlobalID" = some "GUID" :=
  createOutputFC_field_mapping sampleFields sampleFieldDict
    (by decide) (by decide)

/-! ## Work-list divergence and termination -/

theorem childOutcome_alwaysOver (g : Geom) :
    childOutcome alwaysOverOracle 1000 g = none := rfl

theorem extLoop_alwaysOver_none : ∀ (fuel : Nat) (st : ExtState),
    st.queue ≠ [] → extLoop alwaysOverOracle 1000 1 fuel st = none := by
  intro fuel
  induction fuel with
  | zero => intro st _; rfl
  | succ f ih =>
      intro st hq
      cases hql : st.queue with
      | nil => exact absurd hql hq
      | cons fc rest =>
          rw [extLoop, hql]
          simp only
          apply ih
          obtain ⟨_, hqe, _⟩ := foldl_processChild_spec alwaysOverOracle 1000
            (subdividePolygon fc (if st.splitNum > 0 then 2 else 1))
            { queue := rest, jsonDict := st.jsonDict,
              splitNum := st.splitNum + 1 }
          rw [hqe]
          have hall : ∀ g ∈ subdividePolygon fc (if st.splitNum > 0 then 2 else 1),
              ((fun g => (childOutcome alwaysOverOracle 1000 g).isNone) g) = true := by
            intro g _
            show (childOutcome alwaysOverOracle 1000 g).isNone = true
            rw [childOutcome_alwaysOver]
            rfl
          rw [List.filter_eq_self.mpr hall]
          intro hcontra
          have hlen := congrArg List.length hcontra
          simp [subdividePolygon] at hlen
          split at hlen <;> omega

theorem subdividePolygon_two (fc : Geom) :
    subdividePolygon fc 2 = [(0 :: fc : List Nat), (1 :: fc : List Nat)] := rfl

theorem queueMeasure_append (D : Nat) (q1 q2 : List Geom) :
    queueMeasure D (q1 ++ q2) = queueMeasure D q1 + queueMeasure D q2 := by
  simp [queueMeasure]

theorem childOutcome_some_of_deep (oracle : Geom → Nat → Option Nat)
    (maxRC D : Nat)
    (hD : ∀ g : Geom, D ≤ geomLen g → ∃ c, oracle g 0 = some c ∧ c ≤ maxRC)
    (g : Geom) (hg : D ≤ geomLen g) :
    ∃ c, childOutcome oracle maxRC g = some (g, c) := by
  obtain ⟨c, hc, hle⟩ := hD g hg
  exact ⟨c, by simp [childOutcome, countResult, hc, hle]⟩

theorem enqueued_child_shallow (oracle : Geom → Nat → Option Nat)
    (maxRC D : Nat)
    (hD : ∀ g : Geom, D ≤ geomLen g → ∃ c, oracle g 0 = some c ∧ c ≤ maxRC)
    (g : Geom) (hnone : childOutcome oracle maxRC g = none) :
    geomLen g < D := by
  by_contra hge
  push_neg at hge
  obtain ⟨c, hc⟩ := childOutcome_some_of_deep oracle maxRC D hD g hge
  rw [hc] at hnone
  cases hnone

theorem filtered_children_measure (D : Nat) (fc : Geom) (p : Geom → Bool) :
    queueMeasure D (List.filter p (subdividePolygon fc 2)) ≤
      2 * 3 ^ (D - (geomLen fc + 1)) := by
  rw [subdividePolygon_two]
  cases h0 : p (0 :: fc) <;> cases h1 : p (1 :: fc) <;>
    simp [List.filter, h0, h1, queueMeasure, geomWeight, geomLen] <;> omega

theorem extLoop_terminates (oracle : Geom → Nat → Option Nat)
    (maxRC n0 D : Nat)
    (hD : ∀ g : Geom, D ≤ geomLen g → ∃ c, oracle g 0 = some c ∧ c ≤ maxRC) :
    ∀ (fuel : Nat) (st : ExtState),
      (∀ g ∈ st.queue, geomLen g < D) → 0 < st.splitNum →
      queueMeasure D st.queue < fuel →
      ∃ d, extLoop oracle maxRC n0 fuel st = some d := by
  intro fuel
  induction fuel with
  | zero => intro st _ _ hm; exact absurd hm (Nat.not_lt_zero _)
  | succ f ih =>
      intro st hdepth hsplit hm
      cases hql : st.queue with
      | nil =>
          refine ⟨st.jsonDict, ?_⟩
          rw [extLoop, hql]
      | cons fc rest =>
          rw [extLoop, hql]
          simp only
          rw [if_pos hsplit]
          obtain ⟨hd1, hq1, hs1⟩ := foldl_processChild_spec oracle maxRC
            (subdividePolygon fc 2)
            { queue := rest, jsonDict := st.jsonDict,
              splitNum := st.splitNum + 1 }
          simp only at hd1 hq1 hs1
          apply ih
          · intro g hg
            rw [hq1] at hg
            rcases List.mem_append.mp hg with hgl | hgr
            · exact hdepth g (hql ▸ List.mem_cons_of_mem _ hgl)
            · have hgn : childOutcome oracle maxRC g = none :=
                Option.isNone_iff_eq_none.mp (List.mem_filter.mp hgr).2
              exact enqueued_child_shallow oracle maxRC D hD g hgn
          · rw [hs1]
            omega
          · rw [hq1, queueMeasure_append]
            have hmeq : queueMeasure D st.queue =
                geomWeight D fc + queueMeasure D rest := by
              rw [hql]
              simp [queueMeasure]
            have hfcD : geomLen fc < D :=
              hdepth fc (hql ▸ List.mem_cons_self _ _)
            have hfilter := filtered_children_measure D fc
              (fun g => (childOutcome oracle maxRC g).isNone)
            have hpow : 2 * 3 ^ (D - (geomLen fc + 1)) < 3 ^ (D - geomLen fc) := by
              have hsub : D - geomLen fc = (D - (geomLen fc + 1)) + 1 := by omega
              rw [hsub, pow_succ]
              have h3 : 0 < 3 ^ (D - (geomLen fc + 1)) := by positivity
              omega
            have hw : geomWeight D fc = 3 ^ (D - geomLen fc) := rfl
            omega

/-! ## Claim C5 -/

/-- C5 counterexample: the claim says the work-list loop terminates for
every sequence of count-query responses.  Under the response sequence
that reports 1001 CLUs for every piece (with the limit at 1000), every
piece is recycled and re-split forever: for every amount of fuel the
loop is still running, so the function never returns. -/
theorem createListOfJSONextents_can_diverge :
    createListDiverges alwaysOverOracle 1000 := by
  intro fuel
  have h1 : extLoop alwaysOverOracle 1000 1 fuel
      { queue := [([] : List Nat)], jsonDict := [], splitNum := 0 } = none :=
    extLoop_alwaysOver_none fuel _ (by simp)
  show (match extLoop alwaysOverOracle 1000 1 fuel
      { queue := [([] : List Nat)], jsonDict := [], splitNum := 0 } with
      | none => (none : Option (Option (List (Geom × Nat))))
      | some d => if d.length < 1 then some none else some (some d)) = none
  rw [h1]

/-- C5 amended: the loop does return a dictionary or False - each piece
is recorded or re-split, never dropped - provided the count responses
let every piece at some subdivision depth D pass: when every count query
for a piece at depth at least D succeeds with a count at most
maxRecordCount, some amount of fuel makes createListOfJSONextents
return.  Without such a bound the loop can run forever, as the
counterexample shows. -/
theorem createListOfJSONextents_terminates (oracle : Geom → Nat → Option Nat)
    (maxRC D : Nat)
    (hD : ∀ g : Geom, D ≤ geomLen g → ∃ c, oracle g 0 = some c ∧ c ≤ maxRC) :
    ∃ fuel res, createListOfJSONextents oracle maxRC fuel = some res := by
  cases h0 : oracle ([] : List Nat) 0 with
  | none =>
      refine ⟨1, none, ?_⟩
      unfold createListOfJSONextents
      rw [h0]
  | some c0 =>
      by_cases hle : c0 ≤ maxRC
      · refine ⟨1, some [(([] : List Nat), c0)], ?_⟩
        unfold createListOfJSONextents
        rw [h0]
        simp only
        rw [if_pos hle]
      · obtain ⟨hd1, hq1, hs1⟩ := foldl_processChild_spec oracle maxRC
          (subdividePolygon ([] : List Nat) (c0 / 800))
          { queue := [], jsonDict := [], splitNum := 0 + 1 }
        simp only at hd1 hq1 hs1
        set st1 := (subdividePolygon ([] : List Nat) (c0 / 800)).foldl
          (processChild oracle maxRC)
          { queue := [], jsonDict := [], splitNum := 0 + 1 } with hst1
        have hdepth1 : ∀ g ∈ st1.queue, geomLen g < D := by
          intro g hg
          rw [hq1] at hg
          have hgn : childOutcome oracle maxRC g = none :=
            Option.isNone_iff_eq_none.mp (List.mem_filter.mp hg).2
          exact enqueued_child_shallow oracle maxRC D hD g hgn
        have hsplit1 : 0 < st1.splitNum := by
          rw [hs1]
          omega
        obtain ⟨d, hd⟩ := extLoop_terminates oracle maxRC (c0 / 800) D hD
          (queueMeasure D st1.queue + 1) st1 hdepth1 hsplit1 (by omega)
        refine ⟨queueMeasure D st1.queue + 2, ?_⟩
        have hstep : extLoop oracle maxRC (c0 / 800)
            (queueMeasure D st1.queue + 2)
            { queue := [([] : List Nat)], jsonDict := [], splitNum := 0 } =
            extLoop oracle maxRC (c0 / 800)
              (queueMeasure D st1.queue + 1) st1 := by
          have h2 : queueMeasure D st1.queue + 2 =
              (queueMeasure D st1.queue + 1) + 1 := rfl
          rw [h2, extLoop]
          simp only
          rw [if_neg (by omega : ¬ ((0 : Nat) > 0))]
        unfold createListOfJSONextents
        rw [h0]
        simp only
        rw [if_neg hle, hstep, hd]
        by_cases hdl : d.length < 1
        · exact ⟨none, by simp [hdl]⟩
        · exact ⟨some d, by simp [hdl]⟩

/-- C5 witness for the amended claim: with the whole AOI counted at 1600
and every proper piece at 100 (depth bound 1), the function returns. -/
theorem createListOfJSONextents_terminates_witness :
    ∃ fuel res, createListOfJSONextents depthOneOracle 1000 fuel = some res :=
  createListOfJSONextents_terminates depthOneOracle 1000 1
    (fun g hg =>
      ⟨100, by
        have hne : ¬ (geomLen g = 0) := by omega
        simp [depthOneOracle, hne], by omega⟩)

end ExtractCLU
